import Mathlib

/-!
Verification of the BraTS label encoding/decoding transforms in
`src/utils/transforms.py`.

The two transforms under study are pure array maps over integer-valued
tensors.  All tensor values that occur are exact small integers (the float
channels produced by `.float()` are only ever 0.0 or 1.0), so tensors are
modelled as lists of `Int` values, one entry per voxel, and a multi-channel
tensor as a list of channels.  `torch` elementwise operations become `List.map`
and friends; `assert` becomes an `Option` result (`none` = AssertionError);
indexing a missing dictionary key becomes `none` (KeyError).
-/

set_option autoImplicit false

namespace Brats

/-- Converts a boolean voxel to the numeric value produced by `.float()` or by
`torch.mul` with an integer: `True` becomes 1, `False` becomes 0.  The floats
occurring in the program are exactly 0.0 and 1.0, modelled as integers. -/
def b2f (b : Bool) : Int := if b then 1 else 0

/-- Voxelwise TC channel of the encoder:
`torch.logical_or(d[key] == 2, d[key] == 3)` ("merge label 2 and label 3 to
construct TC"). -/
def tcVoxel (v : Int) : Bool := v == 2 || v == 3

/-- Voxelwise WT channel of the encoder:
`torch.logical_or(torch.logical_or(d[key] == 2, d[key] == 3), d[key] == 1)`
("merge labels 1, 2 and 3 to construct WT"). -/
def wtVoxel (v : Int) : Bool := (v == 2 || v == 3) || v == 1

/-- Voxelwise ET channel of the encoder: `d[key] == 2` ("label 2 is ET"). -/
def etVoxel (v : Int) : Bool := v == 2

/-- Per-key body of `ConvertToMultiChannelBasedOnBratsClassesd.__call__`:
builds `result = [TC, WT, ET]` from the label volume and then
`torch.stack(result, axis=0).float()`, giving a 3-channel 0/1 volume. -/
def encodeChannels (xs : List Int) : List (List Int) :=
  [(xs.map tcVoxel).map b2f, (xs.map wtVoxel).map b2f, (xs.map etVoxel).map b2f]

/-- First channel (index 0) of the encoder output: TC. -/
def tcChannel (xs : List Int) : List Int := (encodeChannels xs).getD 0 []

/-- Second channel (index 1) of the encoder output: WT. -/
def wtChannel (xs : List Int) : List Int := (encodeChannels xs).getD 1 []

/-- Third channel (index 2) of the encoder output: ET. -/
def etChannel (xs : List Int) : List Int := (encodeChannels xs).getD 2 []

/-- Value stored under a key of a sample dictionary: either a single-channel
integer label volume, a multi-channel 0/1 volume (as produced by the encoder),
or some other, non-tensor payload (images, metadata, ...). -/
inductive DVal where
  | vol : List Int → DVal
  | chans : List (List Int) → DVal
  | other : Nat → DVal
deriving DecidableEq

/-- First-match lookup in a sample dictionary, modelling `d[key]`. -/
def lookupD (k : String) : List (String × DVal) → Option DVal
  | [] => none
  | (a, v) :: rest => if a = k then some v else lookupD k rest

/-- In-place update of an existing key, modelling `d[key] = value` on a Python
dict whose key is already present: the value is replaced, insertion order and
the key set are unchanged. -/
def updA (k : String) (v : DVal) : List (String × DVal) → List (String × DVal)
  | [] => []
  | (a, w) :: rest => if a = k then (a, v) :: rest else (a, w) :: updA k v rest

/-- Loop of `ConvertToMultiChannelBasedOnBratsClassesd.__call__` over
`self.keys`: for each key, read `d[key]` (KeyError, hence `none`, if absent;
the elementwise comparisons and `torch.logical_or` also require the value to
be an integer label tensor), replace it by the stacked 3-channel volume. -/
def convertLoop (keysList : List String) (d : List (String × DVal)) :
    Option (List (String × DVal)) :=
  match keysList with
  | [] => some d
  | k :: ks =>
    match lookupD k d with
    | some (DVal.vol xs) => convertLoop ks (updA k (DVal.chans (encodeChannels xs)) d)
    | _ => none

/-- `ConvertToMultiChannelBasedOnBratsClassesd.__call__`: copies the input
sample (`d = dict(data)`), rewrites each of `self.keys`, returns the dict. -/
def ConvertToMultiChannelBasedOnBratsClassesd (keys : List String)
    (data : List (String × DVal)) : Option (List (String × DVal)) :=
  convertLoop keys data

/-- Array payload of a `MetaTensor`: either a 3-channel stack or a flat
single-channel volume. -/
inductive TArray where
  | chans : List (List Int) → TArray
  | flat : List Int → TArray
deriving DecidableEq

/-- A `monai.data.MetaTensor`: an array together with its metadata (the
metadata content is irrelevant here and is represented by a tag). -/
structure MetaTensor where
  array : TArray
  meta : Nat
deriving DecidableEq

/-- Voxelwise body of `ConvertToBratsClassesBasedOnMultiChannel.__call__`,
with `tc = data[0]`, `wt = data[1]`, `et = data[2]`:
`label2 = ET`;
`label3 = torch.logical_or(TC, ET != 1)` (a boolean tensor);
`label1 = torch.logical_or(WT, torch.logical_or(label2 != 1, label3 != 1))`;
then `label2 = torch.mul(label1, 1)`, `label2 = torch.mul(label2, 2)`,
`label3 = torch.mul(label3, 3)`, and
`output = torch.add(label1, torch.add(label2, label3))`, where `torch`
promotes boolean tensors to 0/1 integers under `mul` and `add` and
`torch.logical_or` treats any nonzero value as true. -/
def decodeVoxel (tc wt et : Int) : Int :=
  let label3 : Bool := (!(tc == 0)) || !(et == 1)
  let label1 : Bool := (!(wt == 0)) || ((!(et == 1)) || !label3)
  b2f label1 + (2 * b2f label1 + 3 * b2f label3)

/-- Elementwise combination of three equally-long channels (the shapes of the
three rows of a stacked tensor always agree). -/
def map3 (f : Int → Int → Int → Int) : List Int → List Int → List Int → List Int
  | a :: as, b :: bs, c :: cs => f a b c :: map3 f as bs cs
  | _, _, _ => []

/-- `ConvertToBratsClassesBasedOnMultiChannel.__call__`: reads the TC, WT and
ET channels from `data[0]`, `data[1]`, `data[2]` (IndexError, hence `none`,
when fewer than three channels are present), computes the merged label volume
`output`, checks `assert(torch.any(output > 3))` (AssertionError, hence
`none`, when no voxel exceeds 3), then mutates the input via
`data.set_array(output)` and returns `monai.data.MetaTensor(output,
meta=data.meta)`.  `MetaTensor.set_array` performs `self.copy_(src)`, an
in-place broadcast copy: the single-channel `output` of shape `S` broadcasts
into the caller tensor of shape `(C, S)`, so every channel of the caller
tensor is overwritten with a copy of `output` while the tensor keeps its
multi-channel shape (the copied values are exact small integers, so the cast
to the float dtype of the input loses nothing).  The result pairs the
post-call state of the caller-owned input tensor with the returned tensor. -/
def ConvertToBratsClassesBasedOnMultiChannel (data : MetaTensor) :
    Option (MetaTensor × MetaTensor) :=
  match data.array with
  | TArray.chans (tc :: wt :: et :: rest) =>
    let output := map3 decodeVoxel tc wt et
    if output.any (fun v => decide (3 < v)) then
      some (⟨TArray.chans ((tc :: wt :: et :: rest).map (fun _ => output)), data.meta⟩,
        ⟨TArray.flat output, data.meta⟩)
    else
      none
  | _ => none

/-- Specification-side encoder, written from the spec text: the TC channel is
the indicator of labels 2 and 3, the WT channel the indicator of labels 1, 2
and 3, and the ET channel the indicator of label 2, in the fixed channel
order (TC, WT, ET). -/
def specEncodeChannels (xs : List Int) : List (List Int) :=
  [xs.map (fun v => if v = 2 ∨ v = 3 then (1 : Int) else 0),
   xs.map (fun v => if v = 1 ∨ v = 2 ∨ v = 3 then (1 : Int) else 0),
   xs.map (fun v => if v = 2 then (1 : Int) else 0)]

/-- Specification-side decoder, written from the spec text: ET voxels get
value 2, TC-but-not-ET voxels get value 3, WT-but-not-(TC or ET) voxels get
value 1, everything else is background 0. -/
def specDecodeVoxel (tc wt et : Int) : Int :=
  if et = 1 then 2 else if tc = 1 then 3 else if wt = 1 then 1 else 0

/-! Helper lemmas. -/

theorem b2f_eq_one (b : Bool) : b2f b = 1 ↔ b = true := by
  cases b <;> simp [b2f]

theorem b2f_tcVoxel (v : Int) : b2f (tcVoxel v) = if v = 2 ∨ v = 3 then (1 : Int) else 0 := by
  simp [tcVoxel, b2f]

theorem b2f_wtVoxel (v : Int) :
    b2f (wtVoxel v) = if v = 1 ∨ v = 2 ∨ v = 3 then (1 : Int) else 0 := by
  simp [wtVoxel, b2f]
  by_cases h1 : v = 1 <;> by_cases h2 : v = 2 <;> by_cases h3 : v = 3 <;> simp [h1, h2, h3]

theorem b2f_etVoxel (v : Int) : b2f (etVoxel v) = if v = 2 then (1 : Int) else 0 := by
  simp [etVoxel, b2f]

theorem voxel_nested_wt (v : Int) (h : tcVoxel v = true ∨ etVoxel v = true) :
    wtVoxel v = true := by
  rcases h with h | h <;> simp [tcVoxel, etVoxel, wtVoxel] at h ⊢ <;> tauto

theorem voxel_et_tc (v : Int) (h : etVoxel v = true) : tcVoxel v = true := by
  simp [etVoxel, tcVoxel] at h ⊢
  tauto

theorem mapb2f_getD (f : Int → Bool) (xs : List Int) (i : Nat) :
    ((xs.map f).map b2f).getD i 0 = b2f (decide (i < xs.length) && f (xs.getD i 0)) := by
  induction xs generalizing i with
  | nil => simp [b2f]
  | cons a as ih =>
    cases i with
    | zero => simp
    | succ n => simpa [List.getD_cons_succ, Nat.succ_lt_succ_iff] using ih n

theorem lookupD_updA_of_ne (k q : String) (v : DVal) (d : List (String × DVal))
    (h : q ≠ k) : lookupD q (updA k v d) = lookupD q d := by
  induction d with
  | nil => rfl
  | cons p rest ih =>
    obtain ⟨a, w⟩ := p
    by_cases hak : a = k
    · subst hak
      have haq : ¬a = q := fun hq => h hq.symm
      simp [updA, lookupD, haq]
    · by_cases haq : a = q
      · simp [updA, hak, lookupD, haq, h]
      · simp [updA, hak, lookupD, haq, ih]

theorem updA_map_fst (k : String) (v : DVal) (d : List (String × DVal)) :
    (updA k v d).map Prod.fst = d.map Prod.fst := by
  induction d with
  | nil => rfl
  | cons p rest ih =>
    obtain ⟨a, w⟩ := p
    by_cases hak : a = k <;> simp [updA, hak, ih]

theorem convertLoop_total (keys : List String) (data : List (String × DVal))
    (hnd : keys.Nodup)
    (hk : ∀ k ∈ keys, ∃ xs, lookupD k data = some (DVal.vol xs)) :
    (convertLoop keys data).isSome = true := by
  induction keys generalizing data with
  | nil => rfl
  | cons k ks ih =>
    obtain ⟨xs, hx⟩ := hk k (List.mem_cons_self k ks)
    rw [convertLoop, hx]
    refine ih _ (List.nodup_cons.mp hnd).2 ?_
    intro q hq
    have hqk : q ≠ k := fun e => (List.nodup_cons.mp hnd).1 (e ▸ hq)
    rw [lookupD_updA_of_ne k q _ data hqk]
    exact hk q (List.mem_cons_of_mem k hq)

theorem convertLoop_frame (keys : List String) (data d : List (String × DVal))
    (h : convertLoop keys data = some d) :
    (∀ q, q ∉ keys → lookupD q d = lookupD q data) ∧
      d.map Prod.fst = data.map Prod.fst := by
  induction keys generalizing data with
  | nil =>
    cases h
    exact ⟨fun q _ => rfl, rfl⟩
  | cons k ks ih =>
    cases hL : lookupD k data with
    | none => rw [convertLoop, hL] at h; cases h
    | some v =>
      cases v with
      | vol xs =>
        rw [convertLoop, hL] at h
        obtain ⟨h1, h2⟩ := ih (updA k (DVal.chans (encodeChannels xs)) data) h
        constructor
        · intro q hq
          have hqk : q ≠ k := fun e => hq (e ▸ List.mem_cons_self k ks)
          have hqs : q ∉ ks := fun m => hq (List.mem_cons_of_mem k m)
          rw [h1 q hqs, lookupD_updA_of_ne k q _ data hqk]
        · rw [h2, updA_map_fst]
      | chans cs => rw [convertLoop, hL] at h; cases h
      | other n => rw [convertLoop, hL] at h; cases h

/-! Claim theorems. -/

/-- Claim C1: the spec asserts decode(encode(x)) == x for every label volume
with values in 0..3, but the code maps the encoding of the volume [0, 1, 2, 3]
to the constant volume [6, 6, 6, 6]: the round trip fails on every label
value. -/
theorem decode_encode_not_roundtrip :
    ConvertToBratsClassesBasedOnMultiChannel
        ⟨TArray.chans (encodeChannels [0, 1, 2, 3]), 0⟩
      = some (⟨TArray.chans [[6, 6, 6, 6], [6, 6, 6, 6], [6, 6, 6, 6]], 0⟩,
          ⟨TArray.flat [6, 6, 6, 6], 0⟩) ∧
    TArray.flat [6, 6, 6, 6] ≠ TArray.flat [0, 1, 2, 3] := by
  decide

/-- Claim C2: the encoder produces exactly the three indicator channels of the
spec, in the fixed order (TC, WT, ET), and every produced voxel value is 0 or
1. -/
theorem encode_matches_spec (xs : List Int) :
    encodeChannels xs = specEncodeChannels xs ∧
      ∀ c ∈ encodeChannels xs, ∀ v ∈ c, v = 0 ∨ v = 1 := by
  constructor
  · simp only [encodeChannels, specEncodeChannels, List.map_map]
    refine congrArg₂ _ ?_ (congrArg₂ _ ?_ (congrArg₂ _ ?_ rfl)) <;>
      exact List.map_congr_left fun v _ => by
        simp only [Function.comp_apply, b2f_tcVoxel, b2f_wtVoxel, b2f_etVoxel]
  · intro c hc v hv
    simp only [encodeChannels, List.mem_cons, List.not_mem_nil, or_false] at hc
    rcases hc with rfl | rfl | rfl <;>
      · obtain ⟨b, hb, rfl⟩ := List.mem_map.mp hv
        cases b <;> simp [b2f]

/-- Claim C3: the spec decoder sends a voxel with TC = WT = ET = 1 to label 2,
but the code sends the one-voxel volume with those channel values to 6: the
implemented algorithm is not the one the spec states. -/
theorem decode_algorithm_mismatch :
    ConvertToBratsClassesBasedOnMultiChannel ⟨TArray.chans [[1], [1], [1]], 0⟩
      = some (⟨TArray.chans [[6], [6], [6]], 0⟩, ⟨TArray.flat [6], 0⟩) ∧
    specDecodeVoxel 1 1 1 = 2 ∧ (6 : Int) ≠ 2 := by
  decide

/-- Claim C4: on the all-zero 3-channel binary input the decoder returns a
volume containing the value 6, which is outside the label domain 0..3. -/
theorem decode_output_out_of_domain :
    ConvertToBratsClassesBasedOnMultiChannel ⟨TArray.chans [[0], [0], [0]], 0⟩
      = some (⟨TArray.chans [[6], [6], [6]], 0⟩, ⟨TArray.flat [6], 0⟩) ∧
    ¬((6 : Int) = 0 ∨ (6 : Int) = 1 ∨ (6 : Int) = 2 ∨ (6 : Int) = 3) := by
  decide

/-- Claim C5: the decoder is not total on well-typed 3-channel binary input:
on the one-voxel input with TC = 0, WT = 0, ET = 1 the computed output is [3],
no entry exceeds 3, and `assert(torch.any(output > 3))` raises, modelled here
as the `none` result. -/
theorem decode_assertion_failure :
    ConvertToBratsClassesBasedOnMultiChannel ⟨TArray.chans [[0], [0], [1]], 0⟩
      = none := by
  decide

/-- Claim C6, counterexample: the decoder is not pure. On the one-voxel input
with TC = 1, WT = 1, ET = 0 the call succeeds and each channel of the
caller-owned input tensor afterwards holds a broadcast copy of the output
[6] instead of its original values: the input is mutated by
`data.set_array(output)`. -/
theorem decode_mutates_input :
    ConvertToBratsClassesBasedOnMultiChannel ⟨TArray.chans [[1], [1], [0]], 5⟩
      = some (⟨TArray.chans [[6], [6], [6]], 5⟩, ⟨TArray.flat [6], 5⟩) ∧
    (⟨TArray.chans [[6], [6], [6]], 5⟩ : MetaTensor)
      ≠ ⟨TArray.chans [[1], [1], [0]], 5⟩ := by
  decide

/-- Claim C6, amended: whenever the decoder completes on a multi-channel
input, `data.set_array(output)` broadcast-copies the computed single-channel
output into the caller-owned input tensor in place, so afterwards every
channel of the input holds a copy of the output (shape and metadata are
kept and the original channel contents are gone), while the returned tensor
is a fresh single-channel tensor holding the output with the input metadata. -/
theorem decode_overwrites_input (tc wt et : List Int) (rest : List (List Int))
    (m : Nat) (r : MetaTensor × MetaTensor)
    (h : ConvertToBratsClassesBasedOnMultiChannel
        ⟨TArray.chans (tc :: wt :: et :: rest), m⟩ = some r) :
    r.1.array = TArray.chans
        ((tc :: wt :: et :: rest).map (fun _ => map3 decodeVoxel tc wt et)) ∧
      r.1.meta = m ∧ r.2 = ⟨TArray.flat (map3 decodeVoxel tc wt et), m⟩ := by
  unfold ConvertToBratsClassesBasedOnMultiChannel at h
  dsimp only at h
  split at h
  · cases h
    exact ⟨rfl, rfl, rfl⟩
  · cases h

/-- Witness for the amended claim C6, at the all-zero one-voxel input. -/
theorem decode_overwrites_input_witness :
    ((⟨TArray.chans [[6], [6], [6]], 0⟩, ⟨TArray.flat [6], 0⟩) :
        MetaTensor × MetaTensor).1.array
        = TArray.chans (([0] :: [0] :: [0] :: ([] : List (List Int))).map
            (fun _ => map3 decodeVoxel [0] [0] [0])) ∧
      ((⟨TArray.chans [[6], [6], [6]], 0⟩, ⟨TArray.flat [6], 0⟩) :
          MetaTensor × MetaTensor).1.meta = 0 ∧
      ((⟨TArray.chans [[6], [6], [6]], 0⟩, ⟨TArray.flat [6], 0⟩) :
          MetaTensor × MetaTensor).2
        = ⟨TArray.flat (map3 decodeVoxel [0] [0] [0]), 0⟩ :=
  decode_overwrites_input [0] [0] [0] [] 0 _ (by decide)

/-- Claim C7: in the encoder output, every voxel that is 1 in the TC channel
or in the ET channel is also 1 in the WT channel. -/
theorem encoder_channels_nested (xs : List Int) (i : Nat)
    (h : (tcChannel xs).getD i 0 = 1 ∨ (etChannel xs).getD i 0 = 1) :
    (wtChannel xs).getD i 0 = 1 := by
  rw [show tcChannel xs = (xs.map tcVoxel).map b2f from rfl, mapb2f_getD,
      show etChannel xs = (xs.map etVoxel).map b2f from rfl, mapb2f_getD] at h
  rw [show wtChannel xs = (xs.map wtVoxel).map b2f from rfl, mapb2f_getD]
  simp only [b2f_eq_one, Bool.and_eq_true] at h ⊢
  rcases h with ⟨hi, hv⟩ | ⟨hi, hv⟩
  · exact ⟨hi, voxel_nested_wt _ (Or.inl hv)⟩
  · exact ⟨hi, voxel_nested_wt _ (Or.inr hv)⟩

/-- Witness for claim C7, at the volume [2] and voxel index 0. -/
theorem encoder_channels_nested_witness :
    ((tcChannel [2]).getD 0 0 = 1 ∨ (etChannel [2]).getD 0 0 = 1) ∧
      (wtChannel [2]).getD 0 0 = 1 :=
  ⟨Or.inl (by decide), encoder_channels_nested [2] 0 (Or.inl (by decide))⟩

/-- Claim C8: on a sample whose listed keys are pairwise distinct and all
bound to integer label volumes, the encoder completes and returns a
transformed sample. -/
theorem encoder_total (keys : List String) (data : List (String × DVal))
    (hnd : keys.Nodup)
    (hk : ∀ k ∈ keys, ∃ xs, lookupD k data = some (DVal.vol xs)) :
    (ConvertToMultiChannelBasedOnBratsClassesd keys data).isSome = true :=
  convertLoop_total keys data hnd hk

/-- Witness for claim C8, at the single key "label" bound to the volume
[0, 1, 2, 3]. -/
theorem encoder_total_witness :
    (["label"] : List String).Nodup ∧
      (ConvertToMultiChannelBasedOnBratsClassesd ["label"]
          [("label", DVal.vol [0, 1, 2, 3])]).isSome = true :=
  ⟨by simp, encoder_total ["label"] [("label", DVal.vol [0, 1, 2, 3])] (by simp)
    (by
      intro k hk
      rw [List.mem_singleton] at hk
      subst hk
      exact ⟨[0, 1, 2, 3], rfl⟩)⟩

/-- Claim C9: whenever the encoder returns a sample, every entry whose key is
not among the transform keys is unchanged, and the returned sample has exactly
the keys of the input sample, in order. -/
theorem encoder_frame (keys : List String) (data d : List (String × DVal))
    (h : ConvertToMultiChannelBasedOnBratsClassesd keys data = some d) :
    (∀ q, q ∉ keys → lookupD q d = lookupD q data) ∧
      d.map Prod.fst = data.map Prod.fst :=
  convertLoop_frame keys data d h

/-- Witness for claim C9, at a sample with a "label" volume and an unrelated
"image" entry: the "image" entry is untouched and the key set is preserved. -/
theorem encoder_frame_witness :
    lookupD "image"
        [("label", DVal.chans (encodeChannels [2])), ("image", DVal.other 7)]
      = lookupD "image" [("label", DVal.vol [2]), ("image", DVal.other 7)] ∧
    ([("label", DVal.chans (encodeChannels [2])), ("image", DVal.other 7)].map
        Prod.fst)
      = ([("label", DVal.vol [2]), ("image", DVal.other 7)].map Prod.fst) := by
  have h := encoder_frame ["label"]
    [("label", DVal.vol [2]), ("image", DVal.other 7)]
    [("label", DVal.chans (encodeChannels [2])), ("image", DVal.other 7)]
    (by decide)
  exact ⟨h.1 "image" (by decide), h.2⟩

/-- Claim C10: in the encoder output, every voxel that is 1 in the ET channel
is also 1 in the TC channel and in the WT channel, so the three channels are
fully nested. -/
theorem encoder_et_within_tc (xs : List Int) (i : Nat)
    (h : (etChannel xs).getD i 0 = 1) :
    (tcChannel xs).getD i 0 = 1 ∧ (wtChannel xs).getD i 0 = 1 := by
  rw [show etChannel xs = (xs.map etVoxel).map b2f from rfl, mapb2f_getD] at h
  rw [show tcChannel xs = (xs.map tcVoxel).map b2f from rfl, mapb2f_getD,
      show wtChannel xs = (xs.map wtVoxel).map b2f from rfl, mapb2f_getD]
  simp only [b2f_eq_one, Bool.and_eq_true] at h ⊢
  obtain ⟨hi, hv⟩ := h
  exact ⟨⟨hi, voxel_et_tc _ hv⟩, ⟨hi, voxel_nested_wt _ (Or.inr hv)⟩⟩

/-- Witness for claim C10, at the volume [0, 2] and voxel index 1. -/
theorem encoder_et_within_tc_witness :
    (etChannel [0, 2]).getD 1 0 = 1 ∧
      (tcChannel [0, 2]).getD 1 0 = 1 ∧ (wtChannel [0, 2]).getD 1 0 = 1 :=
  ⟨by decide, encoder_et_within_tc [0, 2] 1 (by decide)⟩

end Brats
